import Mathlib

/-!
Verification of the schema-cache and reference-resolution core of the
simpler-salesforce library (src/__init__.py) against its specification.

The embedding models Python dicts as insertion-ordered association lists
(`dget`/`dset` reproduce Python dict lookup and assignment semantics:
assignment to an existing key updates it in place, a new key is appended).
External collaborators (the Salesforce client, the YAML snapshot store and
the query executor) are passed in as explicit function parameters, matching
the interfaces described in the specification: `describe` models
`describe_object` (returning the raw field listing or a falsy result),
`exec` models `run_soql_query` (which catches exceptions and returns a list,
empty on failure), and the snapshot store is modelled as a lossless
association of object names to parsed YAML documents, per the lossless
round-trip contract of the spec.  Python truthiness tests and the
`str.replace` suffix substitution are reproduced exactly.
-/

namespace SimplerSF

/-- Python dict lookup `m.get(k)`: first binding of the key, if any. -/
def dget {κ : Type} [DecidableEq κ] {α : Type} (m : List (κ × α)) (k : κ) : Option α :=
  match m with
  | [] => none
  | (k2, v) :: rest => if k2 = k then some v else dget rest k

/-- Python dict assignment `m[k] = v`: update the existing binding in place
(keeping its position) or append a new binding at the end. -/
def dset {κ : Type} [DecidableEq κ] {α : Type} (m : List (κ × α)) (k : κ) (v : α) : List (κ × α) :=
  match m with
  | [] => [(k, v)]
  | (k2, v2) :: rest => if k2 = k then (k, v) :: rest else (k2, v2) :: dset rest k v

/-- A Python scalar or nested-record value as it occurs in a Salesforce
record: null, string, integer, boolean, or an embedded record (dict). -/
inductive Value where
| nullV : Value
| str : String → Value
| int : Int → Value
| bool : Bool → Value
| obj : List (String × Value) → Value

mutual

/-- Decidable equality for `Value` (hand-rolled because of the nested list). -/
def Value.decEq : (a b : Value) → Decidable (a = b)
| Value.nullV, Value.nullV => isTrue rfl
| Value.nullV, Value.str _ => isFalse (fun h => nomatch h)
| Value.nullV, Value.int _ => isFalse (fun h => nomatch h)
| Value.nullV, Value.bool _ => isFalse (fun h => nomatch h)
| Value.nullV, Value.obj _ => isFalse (fun h => nomatch h)
| Value.str _, Value.nullV => isFalse (fun h => nomatch h)
| Value.str a, Value.str b =>
  if h : a = b then isTrue (by rw [h]) else isFalse (fun he => h (by injection he))
| Value.str _, Value.int _ => isFalse (fun h => nomatch h)
| Value.str _, Value.bool _ => isFalse (fun h => nomatch h)
| Value.str _, Value.obj _ => isFalse (fun h => nomatch h)
| Value.int _, Value.nullV => isFalse (fun h => nomatch h)
| Value.int _, Value.str _ => isFalse (fun h => nomatch h)
| Value.int a, Value.int b =>
  if h : a = b then isTrue (by rw [h]) else isFalse (fun he => h (by injection he))
| Value.int _, Value.bool _ => isFalse (fun h => nomatch h)
| Value.int _, Value.obj _ => isFalse (fun h => nomatch h)
| Value.bool _, Value.nullV => isFalse (fun h => nomatch h)
| Value.bool _, Value.str _ => isFalse (fun h => nomatch h)
| Value.bool _, Value.int _ => isFalse (fun h => nomatch h)
| Value.bool a, Value.bool b =>
  if h : a = b then isTrue (by rw [h]) else isFalse (fun he => h (by injection he))
| Value.bool _, Value.obj _ => isFalse (fun h => nomatch h)
| Value.obj _, Value.nullV => isFalse (fun h => nomatch h)
| Value.obj _, Value.str _ => isFalse (fun h => nomatch h)
| Value.obj _, Value.int _ => isFalse (fun h => nomatch h)
| Value.obj _, Value.bool _ => isFalse (fun h => nomatch h)
| Value.obj a, Value.obj b =>
  match Value.decEqFields a b with
  | isTrue h => isTrue (by rw [h])
  | isFalse h => isFalse (fun he => h (by injection he))

/-- Decidable equality for record field lists. -/
def Value.decEqFields : (a b : List (String × Value)) → Decidable (a = b)
| [], [] => isTrue rfl
| [], _ :: _ => isFalse (fun h => nomatch h)
| _ :: _, [] => isFalse (fun h => nomatch h)
| (k, v) :: r, (k2, v2) :: r2 =>
  if hk : k = k2 then
    match Value.decEq v v2 with
    | isTrue hv =>
      match Value.decEqFields r r2 with
      | isTrue hr => isTrue (by rw [hk, hv, hr])
      | isFalse hr => isFalse (fun he => hr (by injection he))
    | isFalse hv => isFalse (fun he => hv (by injection he with h1 h2; injection h1))
  else isFalse (fun he => hk (by injection he with h1 h2; injection h1))

end

instance : DecidableEq Value := Value.decEq

/-- A flat (or, after resolution, partly nested) record: a Python dict from
field name to value, as returned by the query executor. -/
abbrev Record := List (String × Value)

/-- Python truthiness of a value: `None`, the empty string, `0`, `False`
and the empty dict are falsy; everything else is truthy. -/
def Value.truthy : Value → Bool
| Value.nullV => false
| Value.str s => !s.isEmpty
| Value.int n => n != 0
| Value.bool b => b
| Value.obj fs => !fs.isEmpty

/-- Truthiness of `m.get(k)`: an absent key behaves like `None`. -/
def optTruthy : Option Value → Bool
| none => false
| some v => v.truthy

/-- One step of Python `str.replace`, structural in a fuel argument so that
it stays kernel-reducible; replaces non-overlapping occurrences of `pat`
left to right, exactly like Python. -/
def replaceFuel (pat rep : List Char) : Nat → List Char → List Char
| _, [] => []
| 0, s => s
| fuel + 1, c :: rest =>
  if pat.isPrefixOf (c :: rest) && !pat.isEmpty then
    rep ++ replaceFuel pat rep fuel (List.drop (pat.length - 1) rest)
  else
    c :: replaceFuel pat rep fuel rest

/-- Python `s.replace(pat, rep)`: replace every non-overlapping occurrence
of `pat` in `s` by `rep`, scanning left to right. -/
def pyReplace (s pat rep : String) : String :=
  String.mk (replaceFuel pat.data rep.data s.data.length s.data)

/-- A single-quote character, built by code point to keep source text plain. -/
def sq : String := String.singleton (Char.ofNat 39)

/-- An opening curly brace, built by code point. -/
def lbrace : String := String.singleton (Char.ofNat 123)

/-- A closing curly brace, built by code point. -/
def rbrace : String := String.singleton (Char.ofNat 125)

mutual

/-- Python `repr` of a value, as interpolated into an f-string for
non-string values (dicts print their items with quoted keys). -/
def pyReprV : Value → String
| Value.nullV => "None"
| Value.str s => sq ++ s ++ sq
| Value.int n => toString n
| Value.bool b => if b then "True" else "False"
| Value.obj fs => lbrace ++ String.intercalate ", " (pyReprFields fs) ++ rbrace

/-- Python `repr` of the items of a dict. -/
def pyReprFields : List (String × Value) → List String
| [] => []
| (k, v) :: rest => (sq ++ k ++ sq ++ ": " ++ pyReprV v) :: pyReprFields rest

end

/-- Python `str(v)` as used by f-string interpolation: a string prints
itself, every other value prints via `repr`. -/
def pyStrV : Value → String
| Value.str s => s
| v => pyReprV v

/-- One entry of the raw `picklistValues` listing returned by the metadata
provider; normalization keeps only its `value`. -/
structure PicklistEntry where
  value : String
deriving DecidableEq

/-- A raw field-metadata dict as returned by `describe_object` (only the
keys the loader reads, each accessed with `.get`, so an absent key and a
null value are indistinguishable here, exactly as in the source). -/
structure RawField where
  name : Option String
  label : Option String
  ftype : Option String
  referenceTo : List String
  length : Option Nat
  picklistValues : List PicklistEntry
deriving DecidableEq

/-- The normalized `field_info` dict built by `load_object_definitions`.
`hasName` records whether the dict carries a `name` key at all: the live
loader always inserts one (possibly null), while a field entry parsed from
a snapshot may genuinely lack it, which is what the comprehension guard
`if name in field` tests. -/
structure PyField where
  hasName : Bool
  name : Option String
  label : Option String
  ftype : Option String
  reference : Option String
  length : Option Nat
  picklistValues : List String
deriving DecidableEq

/-- Field descriptor construction (lines 148-156): each key filled with
`.get`, `reference` is the first element of `referenceTo` when that list is
truthy, picklist values keep provider order.  The resulting dict always has
a `name` key. -/
def normalizeField (f : RawField) : PyField :=
  { hasName := true
    name := f.name
    label := f.label
    ftype := f.ftype
    reference := if f.referenceTo.isEmpty then none else f.referenceTo.head?
    length := f.length
    picklistValues := f.picklistValues.map PicklistEntry.value }

/-- An Object Schema: the Python dict from field name to field descriptor.
Keys are `Option String` because `field_info` stores the `name` value,
which the live loader leaves as `None` when the raw field had no name. -/
abbrev Schema := List (Option String × PyField)

/-- The process-wide Schema Catalog `object_definitions`. -/
abbrev Catalog := List (String × Schema)

/-- A parsed YAML snapshot document: either a list of field dicts or
something else (the loader checks `isinstance(fields, list)`). -/
inductive YamlDoc where
| fieldsList : List PyField → YamlDoc
| other : YamlDoc
deriving DecidableEq

/-- The dict comprehension `(field.name): field for field in fields if
name in field` shared by both load modes: insertion order follows the
field list, entries lacking a `name` key are dropped. -/
def buildSchema (fields : List PyField) : Schema :=
  fields.foldl (fun m field => if field.hasName then dset m field.name field else m) []

/-- Loading one snapshot file (lines 175-182): a document that fails to
read or parse (`none`) or is not a list is skipped; a list document is
turned into a schema. -/
def loadSnap (cat : Catalog) (object_name : String) (doc : Option YamlDoc) : Catalog :=
  match doc with
  | some (YamlDoc.fieldsList fields) => dset cat object_name (buildSchema fields)
  | _ => cat

/-- `load_object_definitions(names, cache_folder, output)` (lines 101-182).
`names` is `some l` for a list argument (the default is `some []`) and
`none` for `None`.  `cacheFolder` is `none` for live mode, or the list of
snapshot files found in the folder (file base name and parsed content,
`none` content modelling a read or parse failure).  `describe` and
`allObjects` stand for the `describe_object` and `get_all_objects`
collaborators.  Returns the updated catalog together with the snapshots
written via `output` (empty when `output` is false or in snapshot mode). -/
def load_object_definitions (catalog : Catalog) (names : Option (List String))
    (cacheFolder : Option (List (String × Option YamlDoc))) (output : Bool)
    (describe : String → Option (List RawField)) (allObjects : List String) :
    Catalog × List (String × YamlDoc) :=
  let object_names := match names with
    | none => allObjects
    | some l => if l.isEmpty then allObjects else l
  match cacheFolder with
  | none =>
    object_names.foldl (fun acc object_name =>
      match describe object_name with
      | none => acc
      | some rawFields =>
        let fields := rawFields.map normalizeField
        let cat := dset acc.1 object_name (buildSchema fields)
        let snaps := if output then dset acc.2 object_name (YamlDoc.fieldsList fields) else acc.2
        (cat, snaps)) (catalog, [])
  | some snapshots =>
    (snapshots.foldl (fun cat snap =>
      match names with
      | some filter => if !(filter.contains snap.1) then cat else loadSnap cat snap.1 snap.2
      | none => loadSnap cat snap.1 snap.2) catalog, [])

/-- `get_object_fields(name)` (lines 185-204): `None` when the catalog has
never been populated or the name is missing, otherwise the Object Schema. -/
def get_object_fields (catalog : Catalog) (name : String) : Option Schema :=
  if catalog.isEmpty then none
  else dget catalog name

/-- The comma join over `fields.keys()`: succeeds only when every key is an
actual string; a `None` key makes Python string join raise `TypeError`. -/
def allSome : List (Option String) → Option (List String)
| [] => some []
| none :: _ => none
| some k :: rest => (allSome rest).map (fun l => k :: l)

/-- The query string assembled by `get_object` (lines 239-242): the
comma-joined field list projected from the schema, with the caller-supplied
predicate appended verbatim after WHERE when it is truthy. -/
def build_query (object_name : String) (field_names : List String) (whereClause : Option String) : String :=
  let q := "SELECT " ++ String.intercalate ", " field_names ++ " FROM " ++ object_name
  match whereClause with
  | some w => if w.isEmpty then q else q ++ " WHERE " ++ w
  | none => q

/-- `get_object(object_name, where)` (lines 226-244): empty list when the
schema is missing or falsy; otherwise build the query and run it through
the executor (`run_soql_query` already converts failure to an empty list).
The outer `Option` is `none` when the field-name join raises. -/
def get_object (cat : Catalog) (exec : String → List Record) (object_name : String)
    (whereClause : Option String) : Option (List Record) :=
  match get_object_fields cat object_name with
  | none => some []
  | some fields =>
    if fields.isEmpty then some []
    else
      match allSome (fields.map Prod.fst) with
      | none => none
      | some field_names => some (exec (build_query object_name field_names whereClause))

/-- The identifier-equality predicate built by `get_object_by_id`. -/
def idPredicate (id : String) : String := "Id = " ++ sq ++ id ++ sq

/-- `get_object_by_id(object_name, id)` (lines 247-259): first returned
record, or `None` when the result list is empty. -/
def get_object_by_id (cat : Catalog) (exec : String → List Record) (object_name : String)
    (id : String) : Option (Option Record) :=
  match get_object cat exec object_name (some (idPredicate id)) with
  | none => none
  | some results => some results.head?

/-- Truthiness of `field.get(reference)` for a normalized field dict. -/
def refTruthy (f : PyField) : Bool :=
  match f.reference with
  | some s => !s.isEmpty
  | none => false

/-- `get_object_references(object_name)` (lines 262-278): empty when the
schema is missing or falsy, otherwise the dict of fields with a truthy
`reference`, keyed by each field dict's own `name` value. -/
def get_object_references (catalog : Catalog) (object_name : String) :
    List (Option String × PyField) :=
  match get_object_fields catalog object_name with
  | none => []
  | some fields =>
    if fields.isEmpty then []
    else fields.foldl (fun m p => if refTruthy p.2 then dset m p.2.name p.2 else m) []

/-- The allow-list test `refs is not None and field_name not in refs`. -/
def refsBlocked (refs : Option (List String)) (field_name : String) : Bool :=
  match refs with
  | some allowed => !(allowed.contains field_name)
  | none => false

/-- The body of the loop in `resolve_references` (lines 295-304), walking
the reference-field items in order.  A falsy (or absent, including a `None`
field name) record value skips the field; the allow-list skips next; then
one `get_object_by_id` fetch runs and a truthy result is embedded under the
`__c`-to-`__r` transformed key.  The second component counts the
`get_object_by_id` fetches performed; the first is `none` when a fetch
raises (which `get_object_by_id` only does on a malformed schema). -/
def resolveRefsGo (cat : Catalog) (exec : String → List Record) (refs : Option (List String)) :
    List (Option String × PyField) → Record → Option Record × Nat
| [], obj => (some obj, 0)
| (fname?, field_info) :: rest, obj =>
  match fname? with
  | none => resolveRefsGo cat exec refs rest obj
  | some field_name =>
    match dget obj field_name with
    | none => resolveRefsGo cat exec refs rest obj
    | some v =>
      if !v.truthy then resolveRefsGo cat exec refs rest obj
      else if refsBlocked refs field_name then resolveRefsGo cat exec refs rest obj
      else
        let ref_obj_name := field_info.reference.getD ""
        match get_object_by_id cat exec ref_obj_name (pyStrV v) with
        | none => (none, 1)
        | some ref_data =>
          let next :=
            match ref_data with
            | some r =>
              if r.isEmpty then obj
              else dset obj (pyReplace field_name "__c" "__r") (Value.obj r)
            | none => obj
          let res := resolveRefsGo cat exec refs rest next
          (res.1, res.2 + 1)

/-- `resolve_references(obj, object_name, refs)` (lines 281-305): returns
the record unchanged when the object has no reference fields, otherwise
runs the resolution loop; `none` models an uncaught exception. -/
def resolve_references (cat : Catalog) (exec : String → List Record) (obj : Record)
    (object_name : String) (refs : Option (List String)) : Option Record :=
  let reference_fields := get_object_references cat object_name
  if reference_fields.isEmpty then some obj
  else (resolveRefsGo cat exec refs reference_fields obj).1

/-- The number of `get_object_by_id` fetches performed by a call to
`resolve_references` with the same arguments (instrumentation of the same
loop). -/
def resolveFetchCount (cat : Catalog) (exec : String → List Record) (obj : Record)
    (object_name : String) (refs : Option (List String)) : Nat :=
  let reference_fields := get_object_references cat object_name
  if reference_fields.isEmpty then 0
  else (resolveRefsGo cat exec refs reference_fields obj).2

/-- The transformed keys under which `resolve_references` can embed child
records for a given object: each reference field name with `__c` replaced
by `__r`. -/
def transformedRefKeys (cat : Catalog) (object_name : String) : List String :=
  (get_object_references cat object_name).filterMap
    (fun p => p.1.map (fun fn => pyReplace fn "__c" "__r"))

/-- The transformed keys of an arbitrary reference-field list. -/
def transNamesOf (L : List (Option String × PyField)) : List String :=
  L.filterMap (fun p => p.1.map (fun fn => pyReplace fn "__c" "__r"))

/-- No transformed key of the list collides with any reference-field name
of the list (true in particular whenever every reference field is a custom
`__c` field whose `__r` sibling is not itself a reference field). -/
def transClashFree (L : List (Option String × PyField)) : Bool :=
  L.all (fun p => match p.1 with
    | some fn => L.all (fun q => match q.1 with
      | some gn => pyReplace fn "__c" "__r" != gn
      | none => true)
    | none => true)

/-- The reference fields of the list that are populated (truthy) on a
record and pass the allow-list, i.e. exactly those for which the loop
performs a fetch when its reads are not disturbed by earlier embeds. -/
def countPopulatedAllowed (obj : Record) (refs : Option (List String))
    (L : List (Option String × PyField)) : Nat :=
  (L.filter (fun p => match p.1 with
    | some fn => optTruthy (dget obj fn) && !refsBlocked refs fn
    | none => false)).length

/-- A plain (non-reference) field descriptor for concrete examples. -/
def mkField (n : String) : PyField :=
  ⟨true, some n, some n, some "string", none, none, []⟩

/-- A reference field descriptor for concrete examples. -/
def mkRefField (n target : String) : PyField :=
  ⟨true, some n, some n, some "reference", some target, none, []⟩

/-- A concrete User record returned by the example executor. -/
def userRec : Record := [("Id", Value.str "005"), ("Name", Value.str "Bob")]

/-- A different concrete User record, for the idempotence counterexample. -/
def userRecY : Record := [("Id", Value.str "005"), ("Name", Value.str "Yve")]

/-- A catalog whose Case object has the standard reference field OwnerId
(no custom-field suffix), pointing at a loaded User object. -/
def catOwner : Catalog :=
  [("Case", [(some "OwnerId", mkRefField "OwnerId" "User")]),
   ("User", [(some "Id", mkField "Id"), (some "Name", mkField "Name")])]

/-- An executor that answers the User-by-id query and nothing else. -/
def execOwner : String → List Record := fun q =>
  if q = "SELECT Id, Name FROM User WHERE Id = " ++ sq ++ "005" ++ sq then [userRec] else []

/-- An executor that answers the User-by-id query with one record and every
other query with a different record (the underlying data never changes
between calls; only the query string differs). -/
def execOwner2 : String → List Record := fun q =>
  if q = "SELECT Id, Name FROM User WHERE Id = " ++ sq ++ "005" ++ sq then [userRec] else [userRecY]

/-- A Case record whose OwnerId holds a User identifier. -/
def objOwner : Record := [("OwnerId", Value.str "005")]

/-- A concrete Account record returned by the example executor. -/
def accRec : Record := [("Id", Value.str "001"), ("Name", Value.str "Acme")]

/-- A catalog whose Child object has a custom reference field Parent__c
pointing at a loaded Account object. -/
def catParent : Catalog :=
  [("Child", [(some "Id", mkField "Id"), (some "Parent__c", mkRefField "Parent__c" "Account")]),
   ("Account", [(some "Id", mkField "Id"), (some "Name", mkField "Name")])]

/-- An executor answering the Account-by-id query and nothing else. -/
def execParent : String → List Record := fun q =>
  if q = "SELECT Id, Name FROM Account WHERE Id = " ++ sq ++ "001" ++ sq then [accRec] else []

/-- A Child record whose Parent__c holds an Account identifier. -/
def objParent : Record := [("Id", Value.str "003"), ("Parent__c", Value.str "001")]

/-- The resolved Child record: Parent__c keeps its identifier and the
fetched Account record is embedded under Parent__r. -/
def resParent : Record :=
  [("Id", Value.str "003"), ("Parent__c", Value.str "001"), ("Parent__r", Value.obj accRec)]

/-- A raw field entry with no name (`f.get` of a missing name yields null). -/
def rawNoName : RawField := ⟨none, some "Mystery", some "string", [], none, []⟩

/-- A raw Id field entry. -/
def rawIdField : RawField := ⟨some "Id", some "Id", some "id", [], none, []⟩

/-- A metadata provider describing a Widget object whose first raw field
entry lacks a name. -/
def describeWidget : String → Option (List RawField) := fun n =>
  if n = "Widget" then some [rawNoName, rawIdField] else none

/-- A cache folder holding one well-formed Account snapshot. -/
def snapAccount : List (String × Option YamlDoc) :=
  [("Account", some (YamlDoc.fieldsList [mkField "Id"]))]

/-- A catalog with a loaded Account object and no reference fields. -/
def catAcc : Catalog :=
  [("Account", [(some "Id", mkField "Id"), (some "Name", mkField "Name")])]

/-- An executor that always yields no records. -/
def execEmpty : String → List Record := fun _ => []

/-- An executor that echoes the query it received inside a single record,
exposing the exact query string `get_object` builds. -/
def execEcho : String → List Record := fun q => [[("Q", Value.str q)]]

/-- A schema catalog with a reference cycle: A has B__c pointing at B and B
has A__c pointing back at A. -/
def catCyc : Catalog :=
  [("A", [(some "Id", mkField "Id"), (some "B__c", mkRefField "B__c" "B")]),
   ("B", [(some "Id", mkField "Id"), (some "A__c", mkRefField "A__c" "A")])]

/-- The B record fetched while resolving an A record; its own reference
field A__c is populated, so naive recursion would loop forever. -/
def bRec : Record := [("Id", Value.str "b1"), ("A__c", Value.str "a1")]

/-- An executor answering the B-by-id query over the cyclic catalog. -/
def execCyc : String → List Record := fun q =>
  if q = "SELECT Id, A__c FROM B WHERE Id = " ++ sq ++ "b1" ++ sq then [bRec] else []

/-- An A record over the cyclic catalog, with B__c populated. -/
def objCyc : Record := [("Id", Value.str "a1"), ("B__c", Value.str "b1")]

/-- A raw picklist field with two values in provider order. -/
def rawPick : RawField :=
  ⟨some "Status", some "Status", some "picklist", [], none, [⟨"New"⟩, ⟨"Old"⟩]⟩

/-- A metadata provider describing an Account with an Id and a picklist. -/
def describeAcc : String → Option (List RawField) := fun n =>
  if n = "Account" then some [rawIdField, rawPick] else none

/-- An Account schema with fields Id, Name and OwnerId (reference), in that
order, for the query-builder example of the spec. -/
def catAccOwner : Catalog :=
  [("Account", [(some "Id", mkField "Id"), (some "Name", mkField "Name"),
    (some "OwnerId", mkRefField "OwnerId" "User")])]

theorem dget_dset_self {κ : Type} [DecidableEq κ] {α : Type} (m : List (κ × α)) (k : κ) (v : α) :
    dget (dset m k v) k = some v := by
  induction m with
  | nil => simp [dget, dset]
  | cons p rest ih =>
    by_cases h : p.1 = k
    · simp [dget, dset, h]
    · simp [dget, dset, h, ih]

theorem dget_dset_ne {κ : Type} [DecidableEq κ] {α : Type} (m : List (κ × α)) (k k2 : κ) (v : α)
    (h : k ≠ k2) : dget (dset m k v) k2 = dget m k2 := by
  induction m with
  | nil => simp [dget, dset, h]
  | cons p rest ih =>
    by_cases hp : p.1 = k
    · simp [dget, dset, hp, h]
    · simp [dget, dset, hp, ih]

theorem dset_of_dget {κ : Type} [DecidableEq κ] {α : Type} (m : List (κ × α)) (k : κ) (v : α)
    (h : dget m k = some v) : dset m k v = m := by
  induction m with
  | nil => simp [dget] at h
  | cons p rest ih =>
    obtain ⟨a, b⟩ := p
    by_cases hp : a = k
    · subst hp
      simp [dget] at h
      subst h
      simp [dset]
    · simp [dget, hp] at h
      simp [dset, hp, ih h]

theorem dget_isSome_dset {κ : Type} [DecidableEq κ] {α : Type} (m : List (κ × α)) (k k2 : κ)
    (v : α) (h : (dget m k2).isSome) : (dget (dset m k v) k2).isSome := by
  by_cases hk : k = k2
  · subst hk
    simp [dget_dset_self]
  · rwa [dget_dset_ne m k k2 v hk]

theorem resolveRefsGo_preserve (cat : Catalog) (exec : String → List Record)
    (refs : Option (List String)) (L : List (Option String × PyField)) :
    ∀ (obj r1 : Record), (resolveRefsGo cat exec refs L obj).1 = some r1 →
    ∀ k : String, (∀ fn, (some fn) ∈ L.map Prod.fst → pyReplace fn "__c" "__r" ≠ k) →
    dget r1 k = dget obj k := by
  induction L with
  | nil =>
    intro obj r1 h k _
    simp [resolveRefsGo] at h
    rw [h]
  | cons p rest ih =>
    intro obj r1 h k hk
    obtain ⟨fname?, fi⟩ := p
    have hkrest : ∀ fn, (some fn) ∈ rest.map Prod.fst → pyReplace fn "__c" "__r" ≠ k := by
      intro fn hfn
      exact hk fn (by simp [hfn])
    cases fname? with
    | none =>
      simp only [resolveRefsGo] at h
      exact ih obj r1 h k hkrest
    | some fn =>
      have hhead : pyReplace fn "__c" "__r" ≠ k := hk fn (by simp)
      cases hv : dget obj fn with
      | none =>
        simp only [resolveRefsGo, hv] at h
        exact ih obj r1 h k hkrest
      | some v =>
        by_cases ht : v.truthy
        · by_cases hb : refsBlocked refs fn
          · simp only [resolveRefsGo, hv, ht, hb] at h
            exact ih obj r1 h k hkrest
          · cases hfetch : get_object_by_id cat exec (fi.reference.getD "") (pyStrV v) with
            | none =>
              simp [resolveRefsGo, hv, ht, hb, hfetch] at h
            | some ref_data =>
              cases ref_data with
              | none =>
                simp [resolveRefsGo, hv, ht, hb, hfetch] at h
                exact ih obj r1 h k hkrest
              | some r =>
                by_cases hre : r.isEmpty
                · simp [resolveRefsGo, hv, ht, hb, hfetch, hre] at h
                  exact ih obj r1 h k hkrest
                · simp [resolveRefsGo, hv, ht, hb, hfetch, hre] at h
                  have step := ih _ r1 h k hkrest
                  rw [step, dget_dset_ne obj (pyReplace fn "__c" "__r") k (Value.obj r) hhead]
        · simp only [resolveRefsGo, hv, ht] at h
          exact ih obj r1 h k hkrest

theorem resolveRefsGo_keys (cat : Catalog) (exec : String → List Record)
    (refs : Option (List String)) (L : List (Option String × PyField)) :
    ∀ (obj r1 : Record), (resolveRefsGo cat exec refs L obj).1 = some r1 →
    ∀ k : String, (dget obj k).isSome → (dget r1 k).isSome := by
  induction L with
  | nil =>
    intro obj r1 h k hsome
    simp [resolveRefsGo] at h
    rw [h] at hsome
    exact hsome
  | cons p rest ih =>
    intro obj r1 h k hsome
    obtain ⟨fname?, fi⟩ := p
    cases fname? with
    | none =>
      simp only [resolveRefsGo] at h
      exact ih obj r1 h k hsome
    | some fn =>
      cases hv : dget obj fn with
      | none =>
        simp only [resolveRefsGo, hv] at h
        exact ih obj r1 h k hsome
      | some v =>
        by_cases ht : v.truthy
        · by_cases hb : refsBlocked refs fn
          · simp only [resolveRefsGo, hv, ht, hb] at h
            exact ih obj r1 h k hsome
          · cases hfetch : get_object_by_id cat exec (fi.reference.getD "") (pyStrV v) with
            | none =>
              simp [resolveRefsGo, hv, ht, hb, hfetch] at h
            | some ref_data =>
              cases ref_data with
              | none =>
                simp [resolveRefsGo, hv, ht, hb, hfetch] at h
                exact ih obj r1 h k hsome
              | some r =>
                by_cases hre : r.isEmpty
                · simp [resolveRefsGo, hv, ht, hb, hfetch, hre] at h
                  exact ih obj r1 h k hsome
                · simp [resolveRefsGo, hv, ht, hb, hfetch, hre] at h
                  exact ih _ r1 h k
                    (dget_isSome_dset obj (pyReplace fn "__c" "__r") k (Value.obj r) hsome)
        · simp only [resolveRefsGo, hv, ht] at h
          exact ih obj r1 h k hsome

theorem get_object_by_id_embed (cat : Catalog) (exec : String → List Record) (o i : String)
    (rec : Record) (h : get_object_by_id cat exec o i = some (some rec)) :
    ∃ q, (exec q).head? = some rec := by
  unfold get_object_by_id get_object at h
  cases hf : get_object_fields cat o with
  | none =>
    rw [hf] at h
    simp at h
  | some fields =>
    rw [hf] at h
    by_cases he : fields.isEmpty
    · simp [he] at h
    · cases ha : allSome (fields.map Prod.fst) with
      | none => simp [he, ha] at h
      | some ns =>
        simp [he, ha] at h
        exact ⟨build_query o ns (some (idPredicate i)), h⟩

theorem resolveRefsGo_onelevel (cat : Catalog) (exec : String → List Record)
    (refs : Option (List String)) (L : List (Option String × PyField)) :
    ∀ (obj r1 : Record), (resolveRefsGo cat exec refs L obj).1 = some r1 →
    ∀ (k : String) (v : Value), dget r1 k = some v →
      dget obj k = some v ∨
      ∃ q rec, (exec q).head? = some rec ∧ rec.isEmpty = false ∧ v = Value.obj rec := by
  induction L with
  | nil =>
    intro obj r1 h k v hkv
    simp [resolveRefsGo] at h
    left
    rw [h]
    exact hkv
  | cons p rest ih =>
    intro obj r1 h k v hkv
    obtain ⟨fname?, fi⟩ := p
    cases fname? with
    | none =>
      simp only [resolveRefsGo] at h
      exact ih obj r1 h k v hkv
    | some fn =>
      cases hv : dget obj fn with
      | none =>
        simp only [resolveRefsGo, hv] at h
        exact ih obj r1 h k v hkv
      | some w =>
        by_cases ht : w.truthy
        · by_cases hb : refsBlocked refs fn
          · simp [resolveRefsGo, hv, ht, hb] at h
            exact ih obj r1 h k v hkv
          · cases hfetch : get_object_by_id cat exec (fi.reference.getD "") (pyStrV w) with
            | none =>
              simp [resolveRefsGo, hv, ht, hb, hfetch] at h
            | some ref_data =>
              cases ref_data with
              | none =>
                simp [resolveRefsGo, hv, ht, hb, hfetch] at h
                exact ih obj r1 h k v hkv
              | some r =>
                by_cases hre : r.isEmpty
                · simp [resolveRefsGo, hv, ht, hb, hfetch, hre] at h
                  exact ih obj r1 h k v hkv
                · simp [resolveRefsGo, hv, ht, hb, hfetch, hre] at h
                  rcases ih _ r1 h k v hkv with hnext | hex
                  · by_cases hkT : pyReplace fn "__c" "__r" = k
                    · rw [← hkT, dget_dset_self] at hnext
                      right
                      obtain ⟨q, hq⟩ := get_object_by_id_embed cat exec _ _ r hfetch
                      refine ⟨q, r, hq, by simpa using hre, ?_⟩
                      exact (Option.some_inj.mp hnext).symm
                    · rw [dget_dset_ne obj _ k (Value.obj r) hkT] at hnext
                      exact Or.inl hnext
                  · exact Or.inr hex
        · simp [resolveRefsGo, hv, ht] at h
          exact ih obj r1 h k v hkv

theorem resolveRefsGo_count_le (cat : Catalog) (exec : String → List Record)
    (refs : Option (List String)) (L : List (Option String × PyField)) :
    ∀ obj : Record, (resolveRefsGo cat exec refs L obj).2 ≤ L.length := by
  induction L with
  | nil =>
    intro obj
    simp [resolveRefsGo]
  | cons p rest ih =>
    intro obj
    obtain ⟨fname?, fi⟩ := p
    cases fname? with
    | none =>
      simp only [resolveRefsGo, List.length_cons]
      exact Nat.le_succ_of_le (ih obj)
    | some fn =>
      cases hv : dget obj fn with
      | none =>
        simp only [resolveRefsGo, hv, List.length_cons]
        exact Nat.le_succ_of_le (ih obj)
      | some w =>
        by_cases ht : w.truthy
        · by_cases hb : refsBlocked refs fn
          · simp [resolveRefsGo, hv, ht, hb]
            exact Nat.le_succ_of_le (ih obj)
          · cases hfetch : get_object_by_id cat exec (fi.reference.getD "") (pyStrV w) with
            | none =>
              simp [resolveRefsGo, hv, ht, hb, hfetch]
            | some ref_data =>
              simp [resolveRefsGo, hv, ht, hb, hfetch]
              exact ih _
        · simp [resolveRefsGo, hv, ht]
          exact Nat.le_succ_of_le (ih obj)

theorem countPopulatedAllowed_congr (obj1 obj2 : Record) (refs : Option (List String))
    (L : List (Option String × PyField))
    (h : ∀ p ∈ L, ∀ fn, p.1 = some fn → dget obj1 fn = dget obj2 fn) :
    countPopulatedAllowed obj1 refs L = countPopulatedAllowed obj2 refs L := by
  unfold countPopulatedAllowed
  congr 1
  apply List.filter_congr
  intro p hp
  cases hp1 : p.1 with
  | none => simp [hp1]
  | some fn => simp [hp1, h p hp fn hp1]

theorem transClashFree_spec (L : List (Option String × PyField)) (h : transClashFree L = true) :
    ∀ p ∈ L, ∀ fn, p.1 = some fn → ∀ q ∈ L, ∀ gn, q.1 = some gn →
      pyReplace fn "__c" "__r" ≠ gn := by
  intro p hp fn hfn q hq gn hgn
  unfold transClashFree at h
  rw [List.all_eq_true] at h
  have h1 := h p hp
  rw [hfn] at h1
  simp only [List.all_eq_true] at h1
  have h2 := h1 q hq
  rw [hgn] at h2
  simpa using h2

theorem resolveRefsGo_count_exact (cat : Catalog) (exec : String → List Record)
    (refs : Option (List String)) (L : List (Option String × PyField))
    (hc : ∀ p ∈ L, ∀ fn, p.1 = some fn → ∀ q ∈ L, ∀ gn, q.1 = some gn →
      pyReplace fn "__c" "__r" ≠ gn) :
    ∀ obj : Record, (resolveRefsGo cat exec refs L obj).1.isSome →
      (resolveRefsGo cat exec refs L obj).2 = countPopulatedAllowed obj refs L := by
  induction L with
  | nil =>
    intro obj _
    simp [resolveRefsGo, countPopulatedAllowed]
  | cons p rest ih =>
    have hcrest : ∀ p ∈ rest, ∀ fn, p.1 = some fn → ∀ q ∈ rest, ∀ gn, q.1 = some gn →
        pyReplace fn "__c" "__r" ≠ gn := by
      intro p hp fn hfn q hq gn hgn
      exact hc p (by simp [hp]) fn hfn q (by simp [hq]) gn hgn
    intro obj h
    obtain ⟨fname?, fi⟩ := p
    cases fname? with
    | none =>
      simp only [resolveRefsGo] at h ⊢
      rw [ih hcrest obj h]
      simp [countPopulatedAllowed, List.filter_cons]
    | some fn =>
      cases hv : dget obj fn with
      | none =>
        simp only [resolveRefsGo, hv] at h ⊢
        rw [ih hcrest obj h]
        simp [countPopulatedAllowed, List.filter_cons, hv, optTruthy]
      | some w =>
        by_cases ht : w.truthy
        · by_cases hb : refsBlocked refs fn
          · simp only [resolveRefsGo, hv, ht, hb] at h ⊢
            simp [hb] at h ⊢
            rw [ih hcrest obj h]
            simp [countPopulatedAllowed, List.filter_cons, hv, optTruthy, ht, hb]
          · cases hfetch : get_object_by_id cat exec (fi.reference.getD "") (pyStrV w) with
            | none =>
              simp [resolveRefsGo, hv, ht, hb, hfetch] at h
            | some ref_data =>
              cases ref_data with
              | none =>
                simp [resolveRefsGo, hv, ht, hb, hfetch] at h ⊢
                rw [ih hcrest obj h]
                simp [countPopulatedAllowed, List.filter_cons, hv, optTruthy, ht, hb]
              | some r =>
                by_cases hre : r.isEmpty
                · simp [resolveRefsGo, hv, ht, hb, hfetch, hre] at h ⊢
                  rw [ih hcrest obj h]
                  simp [countPopulatedAllowed, List.filter_cons, hv, optTruthy, ht, hb]
                · simp [resolveRefsGo, hv, ht, hb, hfetch, hre] at h ⊢
                  have hnames : ∀ p ∈ rest, ∀ gn : String, p.1 = some gn →
                      dget (dset obj (pyReplace fn "__c" "__r") (Value.obj r)) gn =
                        dget obj gn := by
                    intro p hp gn hgn
                    exact dget_dset_ne obj _ gn (Value.obj r)
                      (hc (some fn, fi) (by simp) fn rfl p (by simp [hp]) gn hgn)
                  rw [ih hcrest _ h, countPopulatedAllowed_congr _ obj refs rest hnames]
                  simp [countPopulatedAllowed, List.filter_cons, hv, optTruthy, ht, hb]
        · simp only [resolveRefsGo, hv, ht] at h ⊢
          simp at h ⊢
          rw [ih hcrest obj h]
          simp [countPopulatedAllowed, List.filter_cons, hv, optTruthy, ht]

/-- Claim C3 (confirmed): resolution performs exactly one level of
embedding — every value present after resolution is either an original
value of the record or a record taken verbatim from a single executor
response, never itself re-resolved — and the loop performs at most one
fetch per reference field (exactly one per populated, allow-listed field
when transformed keys do not clash with reference field names).  The
resolver is a total function, so it terminates on every input, including a
catalog with a reference cycle such as A to B to A. -/
theorem claim_C3 (cat : Catalog) (exec : String → List Record) (obj : Record)
    (object_name : String) (refs : Option (List String)) :
    (∀ r1, resolve_references cat exec obj object_name refs = some r1 →
      ∀ (k : String) (v : Value), dget r1 k = some v →
        dget obj k = some v ∨
        ∃ q rec, (exec q).head? = some rec ∧ rec.isEmpty = false ∧ v = Value.obj rec) ∧
    resolveFetchCount cat exec obj object_name refs ≤
      (get_object_references cat object_name).length ∧
    (transClashFree (get_object_references cat object_name) = true →
      (resolve_references cat exec obj object_name refs).isSome →
      resolveFetchCount cat exec obj object_name refs =
        countPopulatedAllowed obj refs (get_object_references cat object_name)) := by
  refine ⟨?_, ?_, ?_⟩
  · intro r1 hres k v hkv
    unfold resolve_references at hres
    by_cases he : (get_object_references cat object_name).isEmpty
    · simp [he] at hres
      left
      rw [hres]
      exact hkv
    · simp [he] at hres
      exact resolveRefsGo_onelevel cat exec refs _ obj r1 hres k v hkv
  · unfold resolveFetchCount
    by_cases he : (get_object_references cat object_name).isEmpty
    · simp [he]
    · simp [he]
      exact resolveRefsGo_count_le cat exec refs _ obj
  · intro hclash hsome
    unfold resolveFetchCount
    unfold resolve_references at hsome
    by_cases he : (get_object_references cat object_name).isEmpty
    · have hnil : get_object_references cat object_name = [] := by
        simpa using he
      rw [hnil]
      simp [countPopulatedAllowed]
    · simp [he] at hsome ⊢
      exact resolveRefsGo_count_exact cat exec refs _
        (transClashFree_spec _ hclash) obj hsome

/-- Claim C3, witness: over the cyclic catalog (A references B, B
references A) resolution of an A record terminates with exactly one fetch
— one per populated reference field — and within the reference-field
bound. -/
theorem claim_C3_witness :
    resolveFetchCount catCyc execCyc objCyc "A" none =
      countPopulatedAllowed objCyc none (get_object_references catCyc "A") ∧
    resolveFetchCount catCyc execCyc objCyc "A" none ≤
      (get_object_references catCyc "A").length :=
  ⟨(claim_C3 catCyc execCyc objCyc "A" none).2.2 (by decide) (by decide),
   (claim_C3 catCyc execCyc objCyc "A" none).2.1⟩

/-- Claim C1, counterexample: the claim states that after resolution every
pre-existing key, including a reference field such as OwnerId, still holds
its original scalar value.  On a Case record with the standard reference
field OwnerId, the suffix substitution `__c` to `__r` is the identity, so
`resolve_references` overwrites the pre-existing OwnerId key with the
fetched User record: the original scalar identifier is gone. -/
theorem claim_C1_counterexample :
    dget objOwner "OwnerId" = some (Value.str "005") ∧
    resolve_references catOwner execOwner objOwner "Case" none =
      some [("OwnerId", Value.obj userRec)] ∧
    Value.obj userRec ≠ Value.str "005" :=
  ⟨by decide, by decide, by decide⟩

/-- Claim C1, amended: `resolve_references` never removes keys, and every
pre-existing key other than a transformed reference key (a reference field
name with `__c` replaced by `__r`) keeps its original value.  A key that
coincides with a transformed reference key (e.g. OwnerId, where the
substitution is the identity) can be overwritten by the embedded record. -/
theorem claim_C1_amended (cat : Catalog) (exec : String → List Record) (obj : Record)
    (object_name : String) (refs : Option (List String)) (r1 : Record)
    (hres : resolve_references cat exec obj object_name refs = some r1) :
    (∀ k : String, k ∉ transformedRefKeys cat object_name → dget r1 k = dget obj k) ∧
    (∀ k : String, (dget obj k).isSome → (dget r1 k).isSome) := by
  unfold resolve_references at hres
  by_cases hempty : (get_object_references cat object_name).isEmpty
  · simp only [hempty, if_pos] at hres
    rw [Option.some_inj] at hres
    subst hres
    exact ⟨fun k _ => rfl, fun k hs => hs⟩
  · simp only [hempty, if_neg, Bool.false_eq_true, not_false_iff, if_false] at hres
    constructor
    · intro k hk
      refine resolveRefsGo_preserve cat exec refs (get_object_references cat object_name)
        obj r1 hres k ?_
      intro fn hfn heq
      refine hk ?_
      rw [← heq]
      unfold transformedRefKeys
      have : ∃ p ∈ get_object_references cat object_name, p.1 = some fn := by
        simpa using hfn
      obtain ⟨p, hp, hp1⟩ := this
      exact List.mem_filterMap.mpr ⟨p, hp, by rw [hp1]; rfl⟩
    · intro k hs
      exact resolveRefsGo_keys cat exec refs (get_object_references cat object_name)
        obj r1 hres k hs

/-- Claim C1, witness for the amended theorem: in the Parent__c example the
reference field itself keeps its original identifier after resolution. -/
theorem claim_C1_amended_witness :
    dget resParent "Parent__c" = dget objParent "Parent__c" :=
  (claim_C1_amended catParent execParent objParent "Child" none resParent
    (by decide)).1 "Parent__c" (by decide)

/-- Claim C2 (confirmed): loading an object live (writing a snapshot) and
then loading the same object in snapshot mode from that written snapshot
produce structurally identical Object Schemas, for every object name and
raw field list; snapshot persistence is the lossless round trip of the
normalized field list required by the spec. -/
theorem claim_C2 (O : String) (rawFields : List RawField)
    (describe : String → Option (List RawField)) (allObjects : List String)
    (hdesc : describe O = some rawFields) :
    get_object_fields
      (load_object_definitions [] (some [O]) none true describe allObjects).1 O =
    get_object_fields
      ((load_object_definitions [] (some [O])
        (some ((load_object_definitions [] (some [O]) none true describe allObjects).2.map
          (fun p => (p.1, some p.2)))) false describe allObjects).1) O := by
  simp [load_object_definitions, hdesc, loadSnap, get_object_fields, dget, dset]

/-- Claim C2, witness: a concrete Account with an Id field and a picklist
field round-trips identically through live load plus snapshot reload. -/
theorem claim_C2_witness :
    get_object_fields
      (load_object_definitions [] (some ["Account"]) none true describeAcc []).1 "Account" =
    get_object_fields
      ((load_object_definitions [] (some ["Account"])
        (some ((load_object_definitions [] (some ["Account"]) none true describeAcc []).2.map
          (fun p => (p.1, some p.2)))) false describeAcc []).1) "Account" :=
  claim_C2 "Account" [rawIdField, rawPick] describeAcc [] (by decide)

/-- Claim C4 (code bug, evaluation at the failing input): in live mode a
raw field entry lacking a name is NOT dropped — normalization always
inserts a `name` key (holding null), so the guard `if name in field` is
vacuously true and the entry lands in the Object Schema under the null
key, while the spec requires it to be excluded. -/
theorem claim_C4_code_eval :
    get_object_fields
      (load_object_definitions [] (some ["Widget"]) none false describeWidget []).1 "Widget" =
      some [(none, normalizeField rawNoName), (some "Id", normalizeField rawIdField)] ∧
    dget [(none, normalizeField rawNoName), (some "Id", normalizeField rawIdField)]
      (none : Option String) = some (normalizeField rawNoName) ∧
    (normalizeField rawNoName).hasName = true :=
  ⟨by decide, by decide, by decide⟩

/-- Claim C5 (code bug, evaluation at the failing input): with the `names`
argument left at its default empty list, snapshot mode loads nothing at
all — the filter `names is not None and object_name not in names` skips
every snapshot — although the same cache folder loads fine under an
explicit filter; the docstring and spec say the omitted argument loads
every available snapshot. -/
theorem claim_C5_code_eval :
    (load_object_definitions [] (some []) (some snapAccount) false (fun _ => none) []).1 = [] ∧
    (load_object_definitions [] (some ["Account"]) (some snapAccount) false
      (fun _ => none) []).1 = [("Account", [(some "Id", mkField "Id")])] :=
  ⟨by decide, by decide⟩

/-- Claim C6 (confirmed): the query built by `get_object` selects exactly
the schema's field names in iteration order, comma-joined, from the given
object, and a truthy predicate is appended verbatim after WHERE. -/
theorem claim_C6 (cat : Catalog) (exec : String → List Record) (object_name w : String)
    (fields : Schema) (field_names : List String)
    (h1 : get_object_fields cat object_name = some fields)
    (h2 : fields.isEmpty = false)
    (h3 : allSome (fields.map Prod.fst) = some field_names)
    (h4 : w.isEmpty = false) :
    get_object cat exec object_name (some w) =
      some (exec ("SELECT " ++ String.intercalate ", " field_names ++ " FROM " ++
        object_name ++ " WHERE " ++ w)) ∧
    get_object cat exec object_name none =
      some (exec ("SELECT " ++ String.intercalate ", " field_names ++ " FROM " ++
        object_name)) := by
  constructor
  · unfold get_object
    rw [h1]
    simp [h2, h3, build_query, h4]
  · unfold get_object
    rw [h1]
    simp [h2, h3, build_query]

/-- Claim C6, witness: on the spec's example schema (Id, Name, OwnerId)
the built query is exactly SELECT Id, Name, OwnerId FROM Account, with the
predicate appended verbatim when supplied. -/
theorem claim_C6_witness :
    get_object catAccOwner execEcho "Account" (some "Name = X") =
      some [[("Q", Value.str "SELECT Id, Name, OwnerId FROM Account WHERE Name = X")]] ∧
    get_object catAccOwner execEcho "Account" none =
      some [[("Q", Value.str "SELECT Id, Name, OwnerId FROM Account")]] := by
  have h := claim_C6 catAccOwner execEcho "Account" "Name = X"
    [(some "Id", mkField "Id"), (some "Name", mkField "Name"),
     (some "OwnerId", mkRefField "OwnerId" "User")]
    ["Id", "Name", "OwnerId"] (by decide) (by decide) (by decide) (by decide)
  exact ⟨h.1.trans (by decide), h.2.trans (by decide)⟩

/-- Claim C9 (confirmed): `get_object_by_id` returns the not-found value
(None), not an exception, when the schema is not loaded or the executor
yields no records, and returns the first record otherwise (the conclusion
exposes the head of the executor's response: an empty response gives
`some none`, a non-empty one gives its first record). -/
theorem claim_C9 (cat : Catalog) (exec : String → List Record) (object_name id : String) :
    (get_object_fields cat object_name = none →
      get_object_by_id cat exec object_name id = some none) ∧
    (∀ (fields : Schema) (field_names : List String),
      get_object_fields cat object_name = some fields → fields.isEmpty = false →
      allSome (fields.map Prod.fst) = some field_names →
      get_object_by_id cat exec object_name id =
        some ((exec (build_query object_name field_names (some (idPredicate id)))).head?)) := by
  constructor
  · intro h
    unfold get_object_by_id get_object
    rw [h]
    rfl
  · intro fields field_names h1 h2 h3
    unfold get_object_by_id get_object
    rw [h1]
    simp [h2, h3]

/-- Claim C9, witness: with no catalog loaded, and with a loaded Account
schema but an executor returning no records, the lookup yields None
rather than raising. -/
theorem claim_C9_witness :
    get_object_by_id [] execEmpty "Account" "001x0000003DGT2AAC" = some none ∧
    get_object_by_id catAcc execEmpty "Account" "001x0000003DGT2AAC" = some none := by
  constructor
  · exact (claim_C9 [] execEmpty "Account" "001x0000003DGT2AAC").1 (by decide)
  · have h := (claim_C9 catAcc execEmpty "Account" "001x0000003DGT2AAC").2
      [(some "Id", mkField "Id"), (some "Name", mkField "Name")]
      ["Id", "Name"] (by decide) (by decide) (by decide)
    exact h.trans (by decide)

/-- Claim C10 (confirmed): a reference field whose record value is falsy
(null, absent, empty string, zero or false) is skipped exactly like an
absent value — no fetch is attempted, no embedded key is added, and the
loop state (result and fetch count) is as if the field were not there. -/
theorem claim_C10 (cat : Catalog) (exec : String → List Record) (refs : Option (List String))
    (rest : List (Option String × PyField)) (obj : Record) (fn : String) (fi : PyField)
    (h : optTruthy (dget obj fn) = false) :
    resolveRefsGo cat exec refs ((some fn, fi) :: rest) obj =
      resolveRefsGo cat exec refs rest obj := by
  cases hv : dget obj fn with
  | none => simp [resolveRefsGo, hv]
  | some v =>
    rw [hv] at h
    simp only [optTruthy] at h
    simp [resolveRefsGo, hv, h]

/-- Claim C10, witness: a record holding the integer zero in its reference
field is processed exactly as if the field were absent. -/
theorem claim_C10_witness :
    resolveRefsGo catParent execParent none
      [(some "Parent__c", mkRefField "Parent__c" "Account")] [("Parent__c", Value.int 0)] =
    resolveRefsGo catParent execParent none [] [("Parent__c", Value.int 0)] :=
  claim_C10 catParent execParent none [] [("Parent__c", Value.int 0)] "Parent__c"
    (mkRefField "Parent__c" "Account") (by decide)

/-- Claim C7 (confirmed): a record whose object has no reference fields is
returned unchanged, and a fetch that fails (empty executor response) or
returns an empty record adds no embedded key, raises nothing, and leaves
the remaining sibling fields to be processed on the unchanged record (the
fetch is still counted). -/
theorem claim_C7 (cat : Catalog) (exec : String → List Record) (obj : Record)
    (object_name : String) (refs : Option (List String)) :
    (get_object_references cat object_name = [] →
      resolve_references cat exec obj object_name refs = some obj) ∧
    (∀ (rest : List (Option String × PyField)) (fn : String) (fi : PyField) (v : Value),
      dget obj fn = some v → v.truthy = true → refsBlocked refs fn = false →
      (get_object_by_id cat exec (fi.reference.getD "") (pyStrV v) = some none ∨
       get_object_by_id cat exec (fi.reference.getD "") (pyStrV v) = some (some [])) →
      resolveRefsGo cat exec refs ((some fn, fi) :: rest) obj =
        ((resolveRefsGo cat exec refs rest obj).1,
         (resolveRefsGo cat exec refs rest obj).2 + 1)) := by
  constructor
  · intro h
    unfold resolve_references
    simp [h]
  · intro rest fn fi v hv ht hb hfetch
    rcases hfetch with hf | hf
    · simp [resolveRefsGo, hv, ht, hb, hf]
    · simp [resolveRefsGo, hv, ht, hb, hf]

theorem resolveRefsGo_stable (cat : Catalog) (exec : String → List Record) :
    ∀ (L : List (Option String × PyField)),
    (∀ p ∈ L, ∀ fn, p.1 = some fn → ∀ q ∈ L, ∀ gn, q.1 = some gn →
      pyReplace fn "__c" "__r" ≠ gn) →
    (transNamesOf L).Nodup →
    ∀ (obj r1 : Record) (refs2 : Option (List String)),
    (resolveRefsGo cat exec none L obj).1 = some r1 →
    (resolveRefsGo cat exec refs2 L r1).1 = some r1 := by
  intro L
  induction L with
  | nil =>
    intro _ _ obj r1 refs2 h
    simp [resolveRefsGo] at h ⊢
  | cons p rest ih =>
    intro hc hnd obj r1 refs2 h
    obtain ⟨fname?, fi⟩ := p
    have hcrest : ∀ p ∈ rest, ∀ fn, p.1 = some fn → ∀ q ∈ rest, ∀ gn, q.1 = some gn →
        pyReplace fn "__c" "__r" ≠ gn := by
      intro p hp fn hfn q hq gn hgn
      exact hc p (by simp [hp]) fn hfn q (by simp [hq]) gn hgn
    cases fname? with
    | none =>
      have hndrest : (transNamesOf rest).Nodup := by
        simpa [transNamesOf, List.filterMap_cons] using hnd
      simp only [resolveRefsGo] at h ⊢
      exact ih hcrest hndrest obj r1 refs2 h
    | some fn =>
      have hcons : transNamesOf ((some fn, fi) :: rest) =
          pyReplace fn "__c" "__r" :: transNamesOf rest := by
        simp [transNamesOf, List.filterMap_cons]
      rw [hcons] at hnd
      have hndrest : (transNamesOf rest).Nodup := hnd.of_cons
      have hTnotin : pyReplace fn "__c" "__r" ∉ transNamesOf rest :=
        (List.nodup_cons.mp hnd).1
      have hkfn : ∀ fn2, (some fn2) ∈ rest.map Prod.fst → pyReplace fn2 "__c" "__r" ≠ fn := by
        intro fn2 hfn2
        obtain ⟨p2, hp2, hp2eq⟩ := List.mem_map.mp hfn2
        exact hc p2 (by simp [hp2]) fn2 hp2eq (some fn, fi) (by simp) fn rfl
      have hkT : ∀ fn2, (some fn2) ∈ rest.map Prod.fst →
          pyReplace fn2 "__c" "__r" ≠ pyReplace fn "__c" "__r" := by
        intro fn2 hfn2 heq
        refine hTnotin ?_
        rw [← heq]
        obtain ⟨p2, hp2, hp2eq⟩ := List.mem_map.mp hfn2
        exact List.mem_filterMap.mpr ⟨p2, hp2, by rw [hp2eq]; rfl⟩
      cases hv : dget obj fn with
      | none =>
        simp only [resolveRefsGo, hv] at h
        have hr1fn : dget r1 fn = none := by
          rw [resolveRefsGo_preserve cat exec none rest obj r1 h fn hkfn]
          exact hv
        simp only [resolveRefsGo, hr1fn]
        exact ih hcrest hndrest obj r1 refs2 h
      | some v =>
        by_cases ht : v.truthy
        · cases hfetch : get_object_by_id cat exec (fi.reference.getD "") (pyStrV v) with
          | none =>
            simp [resolveRefsGo, hv, ht, refsBlocked, hfetch] at h
          | some ref_data =>
            cases ref_data with
            | none =>
              simp [resolveRefsGo, hv, ht, refsBlocked, hfetch] at h
              have hr1fn : dget r1 fn = some v := by
                rw [resolveRefsGo_preserve cat exec none rest obj r1 h fn hkfn]
                exact hv
              by_cases hb2 : refsBlocked refs2 fn
              · simp [resolveRefsGo, hr1fn, ht, hb2]
                exact ih hcrest hndrest obj r1 refs2 h
              · simp [resolveRefsGo, hr1fn, ht, hb2, hfetch]
                exact ih hcrest hndrest obj r1 refs2 h
            | some r =>
              by_cases hre : r.isEmpty
              · simp [resolveRefsGo, hv, ht, refsBlocked, hfetch, hre] at h
                have hr1fn : dget r1 fn = some v := by
                  rw [resolveRefsGo_preserve cat exec none rest obj r1 h fn hkfn]
                  exact hv
                by_cases hb2 : refsBlocked refs2 fn
                · simp [resolveRefsGo, hr1fn, ht, hb2]
                  exact ih hcrest hndrest obj r1 refs2 h
                · simp [resolveRefsGo, hr1fn, ht, hb2, hfetch, hre]
                  exact ih hcrest hndrest obj r1 refs2 h
              · simp [resolveRefsGo, hv, ht, refsBlocked, hfetch, hre] at h
                have hTfn : pyReplace fn "__c" "__r" ≠ fn :=
                  hc (some fn, fi) (by simp) fn rfl (some fn, fi) (by simp) fn rfl
                have hr1fn : dget r1 fn = some v := by
                  rw [resolveRefsGo_preserve cat exec none rest _ r1 h fn hkfn]
                  rw [dget_dset_ne obj _ fn (Value.obj r) hTfn]
                  exact hv
                have hTr1 : dget r1 (pyReplace fn "__c" "__r") = some (Value.obj r) := by
                  rw [resolveRefsGo_preserve cat exec none rest _ r1 h
                    (pyReplace fn "__c" "__r") hkT]
                  exact dget_dset_self obj _ (Value.obj r)
                by_cases hb2 : refsBlocked refs2 fn
                · simp [resolveRefsGo, hr1fn, ht, hb2]
                  exact ih hcrest hndrest _ r1 refs2 h
                · simp [resolveRefsGo, hr1fn, ht, hb2, hfetch, hre]
                  rw [dset_of_dget r1 _ _ hTr1]
                  exact ih hcrest hndrest _ r1 refs2 h
        · simp [resolveRefsGo, hv, ht] at h
          have hr1fn : dget r1 fn = some v := by
            rw [resolveRefsGo_preserve cat exec none rest obj r1 h fn hkfn]
            exact hv
          simp [resolveRefsGo, hr1fn, ht]
          exact ih hcrest hndrest obj r1 refs2 h

/-- Claim C8, counterexample: the claim asserts idempotence for every
record whose references were already resolved, with the executor data
unchanged.  For the OwnerId field the transformed key equals the field
name, so the first resolution replaces the identifier by the embedded User
record; the second resolution then uses the embedded record itself as the
lookup identifier, and the (unchanged) executor's response to that
degenerate query replaces the previously embedded value. -/
theorem claim_C8_counterexample :
    resolve_references catOwner execOwner2 objOwner "Case" none =
      some [("OwnerId", Value.obj userRec)] ∧
    resolve_references catOwner execOwner2 [("OwnerId", Value.obj userRec)] "Case"
      (some ["OwnerId"]) = some [("OwnerId", Value.obj userRecY)] ∧
    Value.obj userRecY ≠ Value.obj userRec :=
  ⟨by decide, by decide, by decide⟩

/-- Claim C8, amended: re-resolving an already fully resolved record (with
any allow-list, in particular one restricted to the fields resolved first)
leaves it entirely unchanged, provided no transformed reference key (name
with `__c` replaced by `__r`) collides with a reference field name and the
transformed keys are pairwise distinct; the collision case (identity
transformation, e.g. OwnerId) is excluded, as the counterexample forces. -/
theorem claim_C8_amended (cat : Catalog) (exec : String → List Record) (obj : Record)
    (object_name : String) (refs2 : Option (List String)) (r1 : Record)
    (hclash : transClashFree (get_object_references cat object_name) = true)
    (hnd : (transNamesOf (get_object_references cat object_name)).Nodup)
    (hres : resolve_references cat exec obj object_name none = some r1) :
    resolve_references cat exec r1 object_name refs2 = some r1 := by
  unfold resolve_references at hres ⊢
  by_cases he : (get_object_references cat object_name).isEmpty
  · simp [he] at hres ⊢
  · simp [he] at hres ⊢
    exact resolveRefsGo_stable cat exec _ (transClashFree_spec _ hclash) hnd
      obj r1 refs2 hres

/-- Claim C8, witness for the amended theorem: re-resolving the resolved
Parent__c example with the allow-list restricted to the field resolved the
first time returns the record unchanged. -/
theorem claim_C8_witness :
    resolve_references catParent execParent resParent "Child" (some ["Parent__c"]) =
      some resParent :=
  claim_C8_amended catParent execParent objParent "Child" (some ["Parent__c"]) resParent
    (by decide) (by decide) (by decide)

/-- Claim C7, witness: an object without reference fields resolves to the
unchanged record, and a failing fetch on Parent__c adds nothing while the
loop proceeds past it. -/
theorem claim_C7_witness :
    resolve_references catAcc execEmpty [("Id", Value.str "1")] "Account" none =
      some [("Id", Value.str "1")] ∧
    resolveRefsGo catParent execEmpty none
      [(some "Parent__c", mkRefField "Parent__c" "Account")] objParent =
      ((resolveRefsGo catParent execEmpty none [] objParent).1,
       (resolveRefsGo catParent execEmpty none [] objParent).2 + 1) := by
  constructor
  · exact (claim_C7 catAcc execEmpty [("Id", Value.str "1")] "Account" none).1 (by decide)
  · exact (claim_C7 catParent execEmpty objParent "Child" none).2 []
      "Parent__c" (mkRefField "Parent__c" "Account") (Value.str "001")
      (by decide) (by decide) (by decide) (Or.inl (by decide))

end SimplerSF
